import Mathlib

/-!
Verification of the paginated-collection scripts of the Webish repository.

Shallow embedding of the four Python scripts:
* Anonymous_CrookedConfluence.py  (keyword search, offset pagination, global set)
* Confluence_Anon_List_All.py     (space/page/attachment listing, recursive child pages)
* confluence_get_group_members.py (cursor pagination over group members)
* simple_http_probe.py            (per-port HTTPS-then-HTTP probe)

HTTP request outcomes are modelled explicitly: a request either yields a parsed
payload or fails (network error, non-2xx status, malformed body), written as
an Except value.  A Python exception that no handler catches is modelled by
propagating the Except error; process exits are modelled by a dedicated
result constructor.
-/

/-! ## Anonymous_CrookedConfluence.py -/

/-- One search result as used by searchKeyWords: the fields read from
results[i].content are the webui link, and the title.  (The id is read but
never used to build the stored string.) -/
structure SearchRec where
  webui : String
  title : String
deriving DecidableEq, Repr

/-- The string added to contentSet for one result:
id_and_name = pageId_url + "," + page_name + "," + search_term. -/
def recKey (r : SearchRec) (term : String) : String :=
  r.webui ++ "," ++ r.title ++ "," ++ term

/-- Python set.add on the model of the set (a duplicate-free list; insertion
order is irrelevant to the properties proved below). -/
def setAdd (s : List String) (x : String) : List String :=
  if x ∈ s then s else s ++ [x]

/-- The inner for-loop over jsonResp["results"]: each result is turned into
its id_and_name string and added to contentSet. -/
def addAll (s : List String) (recs : List SearchRec) (term : String) : List String :=
  recs.foldl (fun acc r => setAdd acc (recKey r term)) s

/-- The per-term view of the server.  countOutcome is the outcome of the
getNumberOfPages request (the parsed totalSize, or a failure);
pageOutcome start is the outcome of the page request
"/rest/api/search?start={start}&limit=250" (the parsed results list, or a
failure). -/
structure TermServer where
  countOutcome : Except String Nat
  pageOutcome : Nat → Except String (List SearchRec)

/-- getNumberOfPages: issues the count request and parses totalSize.  There is
no try/except around the request, response.json() or int(...), so any failure
propagates to the caller. -/
def getNumberOfPages (srv : TermServer) : Except String Nat :=
  srv.countOutcome

/-- Prepends a requested offset to the request list of a loop result (failures
pass through). -/
def consStart (start : Nat) :
    Except String (List Nat × List String) → Except String (List Nat × List String)
  | .error e => .error e
  | .ok (sts, s2) => .ok (start :: sts, s2)

/-- The while-loop of searchKeyWords:
while start_point < totalSize: fetch the page at start_point, add every
result to the set, start_point += 250.
Returns the list of start offsets requested together with the final set.
A failed page request or malformed body propagates (there is no handler). -/
def pageLoopE (srv : TermServer) (term : String) (totalSize start : Nat)
    (s : List String) : Except String (List Nat × List String) :=
  if _h : start < totalSize then
    match srv.pageOutcome start with
    | .error e => .error e
    | .ok recs =>
      consStart start (pageLoopE srv term totalSize (start + 250) (addAll s recs term))
  else
    .ok ([], s)
termination_by totalSize - start
decreasing_by omega

/-- The body of searchKeyWords for a single dictionary line (search term):
totalSize := getNumberOfPages(...); if totalSize: (cap totalSize at limit;
run the page loop from start_point = 1) else: add nothing. -/
def searchTermE (srv : TermServer) (term : String) (limit : Nat)
    (s : List String) : Except String (List Nat × List String) :=
  match getNumberOfPages srv with
  | .error e => .error e
  | .ok totalSize =>
    if totalSize ≠ 0 then
      pageLoopE srv term (if totalSize > limit then limit else totalSize) 1 s
    else
      .ok ([], s)

/-- searchKeyWords: iterate over the dictionary lines, one searchTermE run per
term, all feeding the one (global) contentSet.  An uncaught exception in any
term's run aborts the whole loop. -/
def searchKeyWordsE (server : String → TermServer) (limit : Nat) :
    List String → List String → Except String (List String)
  | [], s => .ok s
  | t :: ts, s =>
    match searchTermE (server t) t limit s with
    | .error e => .error e
    | .ok (_, s2) => searchKeyWordsE server limit ts s2

/-- A server that never fails: it reports totalSize = recs.length and answers
the page request at offset start with the slice of recs starting there, pageSize
records long (pageSize models how many records the server puts on one page). -/
def honestServer (recs : List SearchRec) (pageSize : Nat) : TermServer :=
  { countOutcome := .ok recs.length
    pageOutcome := fun start => .ok ((recs.drop start).take pageSize) }

/-- Python's sys.maxsize, the default -l limit. -/
def maxsize : Nat := 9223372036854775807

/-- A server where the very first request of the term "secret" (the
getNumberOfPages count request) fails with a network error, while every other
term is served honestly. -/
def crashingServer : String → TermServer := fun t =>
  if t = "secret" then
    { countOutcome := .error "connection refused"
      pageOutcome := fun _ => .error "connection refused" }
  else honestServer [⟨"/u0", "t0"⟩, ⟨"/u1", "t1"⟩] 1

/-- saveContent's per-page output: page.split(",")[0] is appended to ogURL,
then a line with the name and the search term is written. -/
def saveEntry (ogURL page : String) : String :=
  let parts := page.splitOn ","
  ogURL ++ parts.getD 0 "" ++ "\n" ++ "      " ++ parts.getD 1 ""
    ++ " - Found using term: " ++ parts.getD 2 "" ++ "\n"

/-- saveContent: one write per element of contentSet, in order. -/
def saveContent (ogURL : String) (s : List String) : List String :=
  s.map (saveEntry ogURL)

/-- State built by main's option loop. -/
structure ArgState where
  cURL : String
  dict : String
  userAgent : String
  limit : Nat
deriving Repr, DecidableEq

/-- The initial option state: empty strings, limit = sys.maxsize. -/
def initArgs : ArgState := ⟨"", "", "", maxsize⟩

/-- main's for-loop over the getopt result.  Each option is checked against
-h and --help first (sys.exit() with status 0), then the value-setting options.
Returns none when the help exit was taken.  (int(arg) for -l is abstracted:
a non-numeric -l argument, which raises in the source, keeps the old limit
here; no claim touches that path.) -/
def procOpts : List (String × String) → ArgState → Option ArgState
  | [], st => some st
  | (o, a) :: rest, st =>
    if o = "-h" ∨ o = "--help" then none
    else
      procOpts rest
        { cURL := if o = "-c" ∨ o = "--url" then a else st.cURL
          dict := if o = "-d" ∨ o = "--dict" then a else st.dict
          userAgent := if o = "-a" ∨ o = "--user-agent" then a else st.userAgent
          limit := if o = "-l" ∨ o = "--limit" then (a.toNat?.getD st.limit) else st.limit }

/-- The outcome of a run of main.  All HTTP requests of the script happen
inside searchKeyWords, so a result of the form exitedBeforeRun c means the
process exited with status c before any collection request was issued. -/
inductive MainResult where
  | exitedBeforeRun (code : Nat)
  | ran (outcome : Except String (List String))

/-- main: getopt (a parse error exits 2), the option loop (-h exits 0),
the mandatory-argument checks (each exits 2), then searchKeyWords, whose
first action is opening the dictionary file (fileTerms = none models an
unreadable file: searchKeyWords exits 2 before any request). -/
def mainModel (getoptOk : Bool) (opts : List (String × String))
    (fileTerms : Option (List String)) (server : String → TermServer) : MainResult :=
  if ¬getoptOk then .exitedBeforeRun 2
  else
    match procOpts opts initArgs with
    | none => .exitedBeforeRun 0
    | some st =>
      if st.dict = "" then .exitedBeforeRun 2
      else if st.cURL = "" then .exitedBeforeRun 2
      else
        match fileTerms with
        | none => .exitedBeforeRun 2
        | some terms => .ran (searchKeyWordsE server st.limit terms [])

/-! ## Confluence_Anon_List_All.py -/

/-- safe_request: requests.get, raise_for_status, response.json().  Every
RequestException (network error, non-2xx status) and every JSONDecodeError is
caught, logged and turned into None; a successful request yields the parsed
payload. -/
def safe_request {α : Type} (outcome : Except String α) : Option α :=
  match outcome with
  | .ok a => some a
  | .error _ => none

/-- get_pages_in_space: on a failed request return [], otherwise one
(id, title, url) triple per entry of data["results"].  The payload of the
request is modelled as the list of (id, title) pairs of the results. -/
def get_pages_in_space (outcome : Except String (List (Nat × String)))
    (cURL : String) : List (Nat × String × String) :=
  match safe_request outcome with
  | none => []
  | some pages =>
    pages.map (fun p => (p.1, p.2, cURL ++ "/pages/viewpage.action?pageId=" ++ toString p.1))

/-- The space loop of list_all_content: for each space (in order) the pages of
that space are collected with get_pages_in_space; pagesOutcome gives the
outcome of the request for each space key. -/
def spacesPages (pagesOutcome : String → Except String (List (Nat × String)))
    (cURL : String) : List String → List (String × List (Nat × String × String))
  | [] => []
  | key :: rest =>
    (key, get_pages_in_space (pagesOutcome key) cURL) :: spacesPages pagesOutcome cURL rest

/-- get_child_pages.  children id is the outcome of the request for the child
pages of id (entries are identified by their id: the title and url fields of a
triple are functions of the id, so entries are modelled by their ids).
The Python body is

  child_pages = [direct children]
  for page_id, ... in tqdm(child_pages, ...):
      child_pages.extend(get_child_pages(cURL, headers, page_id))
  return child_pages

and the for-statement iterates the very list being extended, so appended
entries are processed too.  This is modelled by gcpLoop over the pair
(done, pending): done holds the already-iterated elements in order, pending
the rest; extend appends to the end of pending; the returned child_pages list
is done once pending is exhausted.  fuel models the (in Python unbounded)
recursion depth: none means the fuel ran out. -/
def gcp (fuel : Nat) (children : Nat → Except String (List Nat)) (parent : Nat) :
    Option (List Nat) :=
  match fuel with
  | 0 => none
  | f + 1 =>
    match children parent with
    | .error _ => some []
    | .ok kids => gcpLoop f children [] kids
where
  gcpLoop : Nat → (Nat → Except String (List Nat)) → List Nat → List Nat → Option (List Nat)
  | 0, _, _, _ => none
  | _ + 1, _, done, [] => some done
  | f + 1, children, done, x :: rest =>
    match gcp f children x with
    | none => none
    | some sub => gcpLoop f children (done ++ [x]) (rest ++ sub)

/-- The content tree of the child-page scenario: node 0 is the page the
enumeration starts from; its 7 descendants form a tree of depth 3 with
branching factor 2 (node 1 below the root, nodes 2,3 below it, leaves
4,5,6,7 below those).  Every request succeeds. -/
def tree7 : Nat → Except String (List Nat)
  | 0 => .ok [1]
  | 1 => .ok [2, 3]
  | 2 => .ok [4, 5]
  | 3 => .ok [6, 7]
  | _ => .ok []

/-! ## confluence_get_group_members.py -/

/-- One response of the members endpoint: either a 200 response carrying
data["results"] (the usernames) and the presence of data["_links"]["next"],
or a non-200 response. -/
inductive MemberResp where
  | ok (results : List String) (hasNext : Bool)
  | err (msg : String)
deriving DecidableEq, Repr

/-- Whether a response is a 200 response. -/
def respOk : MemberResp → Bool
  | .ok _ _ => true
  | .err _ => false

/-- The usernames extracted from a response. -/
def respResults : MemberResp → List String
  | .ok rs _ => rs
  | .err _ => []

/-- Whether a response carries a next link. -/
def respNext : MemberResp → Bool
  | .ok _ b => b
  | .err _ => false

/-- ConfluenceAPI.get_all_users.  The server's pages are the given list, the
next link of page i leading to page i+1; a request past the end of the list
fails (non-200).  The while-loop: on a non-200 response break (keeping the
accumulated user_list); otherwise append every username of the page, then
follow the next link if present, else break. -/
def get_all_users : List MemberResp → List String → List String
  | [], acc => acc
  | .err _ :: _, acc => acc
  | .ok rs nxt :: rest, acc =>
    if nxt then get_all_users rest (acc ++ rs) else acc ++ rs

/-! ## simple_http_probe.py -/

/-- The outcome of one session.get call: an HTTP response (any status), or
one of the exception classes probe_once catches. -/
inductive ReqOutcome where
  | resp (status : Nat) (reason : String) (body : String)
  | sslError (msg : String)
  | connectTimeout
  | readTimeout
  | connectionError (msg : String)
  | otherExc (msg : String)

/-- The 4-tuple probe_once returns: (result_str, status_code_or_None,
reason_or_None, details).  The details dict is abstracted to the string that
the caller reads from it (error message or body snippet). -/
structure ProbeResult where
  result : String
  status_code : Option Nat
  reason : Option String
  details : String
deriving DecidableEq, Repr

/-- needle.isPrefixOf-style check on characters: does hay start with needle? -/
def listStartsWith : List Char → List Char → Bool
  | _, [] => true
  | [], _ :: _ => false
  | a :: as, b :: bs => a == b && listStartsWith as bs

/-- Python "needle in hay" on the character lists. -/
def listHasSub (hay needle : List Char) : Bool :=
  listStartsWith hay needle ||
    match hay with
    | [] => false
    | _ :: t => listHasSub t needle

/-- String startsWith via the character lists. -/
def strStarts (s t : String) : Bool := listStartsWith s.toList t.toList

/-- Python "needle in hay" on strings. -/
def strHasSub (hay needle : String) : Bool := listHasSub hay.toList needle.toList

/-- probe_once: a 503 response whose (truthy) reason contains
"Service Unavailable" is NOT OPEN; any other response is POTENTIAL OPEN; every
caught exception is a NO RESPONSE variant with status_code and reason None. -/
def probe_once (o : ReqOutcome) : ProbeResult :=
  match o with
  | .resp st reason body =>
    if st = 503 ∧ reason ≠ "" ∧ strHasSub reason "Service Unavailable" = true then
      ⟨"NOT OPEN (503 Service Unavailable)", some st, some reason, ""⟩
    else
      ⟨"POTENTIAL OPEN", some st, some reason, body.take 300⟩
  | .sslError e => ⟨"NO RESPONSE (ssl_error)", none, none, e⟩
  | .connectTimeout => ⟨"NO RESPONSE (connect_timeout)", none, none, ""⟩
  | .readTimeout => ⟨"NO RESPONSE (read_timeout)", none, none, ""⟩
  | .connectionError e => ⟨"NO RESPONSE (connection_error)", none, none, e⟩
  | .otherExc e => ⟨"NO RESPONSE (unknown_error)", none, none, e⟩

/-- The two schemes tried per port, https first. -/
inductive Scheme where
  | https
  | http
deriving DecidableEq, Repr

/-- The per-port body of main's loop: for scheme in ("https", "http"): probe;
if status_code is not None: break.  httpsO and httpO are the outcomes the two
possible requests would have; the returned list holds the probes actually
made, in order. -/
def probePort (httpsO httpO : ReqOutcome) : List (Scheme × ProbeResult) :=
  let r1 := probe_once httpsO
  match r1.status_code with
  | some _ => [(Scheme.https, r1)]
  | none => [(Scheme.https, r1), (Scheme.http, probe_once httpO)]

/-! ## Lemmas about the keyword-search collection -/

theorem pageLoopE_stop {srv : TermServer} {term : String} {totalSize start : Nat}
    {s : List String} (h : ¬ start < totalSize) :
    pageLoopE srv term totalSize start s = .ok ([], s) := by
  unfold pageLoopE
  rw [dif_neg h]

theorem pageLoopE_step {srv : TermServer} {term : String} {totalSize start : Nat}
    {s : List String} (h : start < totalSize) :
    pageLoopE srv term totalSize start s =
      match srv.pageOutcome start with
      | .error e => .error e
      | .ok recs =>
        consStart start (pageLoopE srv term totalSize (start + 250) (addAll s recs term)) := by
  conv_lhs => unfold pageLoopE
  rw [dif_pos h]

theorem setAdd_nodup {s : List String} (h : s.Nodup) (x : String) : (setAdd s x).Nodup := by
  by_cases hx : x ∈ s
  · simpa [setAdd, hx] using h
  · simp [setAdd, hx, List.nodup_append, h]

theorem addAll_nodup (term : String) :
    ∀ (recs : List SearchRec) (s : List String), s.Nodup → (addAll s recs term).Nodup
  | [], _, h => h
  | r :: rs, s, h =>
    addAll_nodup term rs (setAdd s (recKey r term)) (setAdd_nodup h (recKey r term))

/-- Every offset the page loop requests lies in [start, totalSize), and the
loop preserves freedom from duplicates of the accumulated set. -/
theorem pageLoopE_spec (srv : TermServer) (term : String) :
    ∀ (n totalSize start : Nat) (s : List String) (sts : List Nat) (s2 : List String),
      totalSize - start ≤ n →
      pageLoopE srv term totalSize start s = .ok (sts, s2) →
      (∀ x ∈ sts, start ≤ x ∧ x < totalSize) ∧ (s.Nodup → s2.Nodup) := by
  intro n
  induction n with
  | zero =>
    intro totalSize start s sts s2 hle heq
    rw [pageLoopE_stop (by omega)] at heq
    obtain ⟨h1, h2⟩ : ([] : List Nat) = sts ∧ s = s2 := by simpa using heq
    subst h1; subst h2
    exact ⟨by simp, fun h => h⟩
  | succ n ih =>
    intro totalSize start s sts s2 hle heq
    by_cases hlt : start < totalSize
    · rw [pageLoopE_step hlt] at heq
      cases hpo : srv.pageOutcome start with
      | error e => rw [hpo] at heq; simp at heq
      | ok recs =>
        rw [hpo] at heq
        dsimp only at heq
        cases hrec : pageLoopE srv term totalSize (start + 250) (addAll s recs term) with
        | error e => rw [hrec] at heq; simp [consStart] at heq
        | ok p =>
          obtain ⟨sts1, s21⟩ := p
          rw [hrec] at heq
          obtain ⟨h1, h2⟩ : start :: sts1 = sts ∧ s21 = s2 := by
            simpa [consStart] using heq
          subst h1; subst h2
          have hr := ih totalSize (start + 250) (addAll s recs term) sts1 s21 (by omega) hrec
          refine ⟨?_, ?_⟩
          · intro x hx
            rcases List.mem_cons.mp hx with rfl | hx2
            · exact ⟨Nat.le_refl _, hlt⟩
            · obtain ⟨ha, hb⟩ := hr.1 x hx2
              exact ⟨by omega, hb⟩
          · intro hnd
            exact hr.2 (addAll_nodup term recs s hnd)
    · rw [pageLoopE_stop hlt] at heq
      obtain ⟨h1, h2⟩ : ([] : List Nat) = sts ∧ s = s2 := by simpa using heq
      subst h1; subst h2
      exact ⟨by simp, fun h => h⟩

/-- A successful searchTermE run preserves freedom from duplicates. -/
theorem searchTermE_nodup {srv : TermServer} {term : String} {limit : Nat}
    {s : List String} {sts : List Nat} {s2 : List String}
    (hr : searchTermE srv term limit s = .ok (sts, s2)) (hnd : s.Nodup) : s2.Nodup := by
  rw [searchTermE] at hr
  cases hg : getNumberOfPages srv with
  | error e => rw [hg] at hr; simp at hr
  | ok total =>
    rw [hg] at hr
    dsimp only at hr
    by_cases h0 : total ≠ 0
    · rw [if_pos h0] at hr
      exact (pageLoopE_spec srv term (if total > limit then limit else total) _ 1 s sts s2
        (by omega) hr).2 hnd
    · rw [if_neg h0] at hr
      obtain ⟨h1, h2⟩ : ([] : List Nat) = sts ∧ s = s2 := by simpa using hr
      subst h1; subst h2
      exact hnd

/-- A successful searchKeyWordsE run preserves freedom from duplicates. -/
theorem searchKeyWordsE_nodup (server : String → TermServer) (limit : Nat) :
    ∀ (terms : List String) (s res : List String),
      searchKeyWordsE server limit terms s = .ok res → s.Nodup → res.Nodup := by
  intro terms
  induction terms with
  | nil =>
    intro s res h hnd
    obtain h2 : s = res := by simpa [searchKeyWordsE] using h
    subst h2
    exact hnd
  | cons t ts ih =>
    intro s res h hnd
    rw [searchKeyWordsE] at h
    cases hst : searchTermE (server t) t limit s with
    | error e => rw [hst] at h; simp at h
    | ok p =>
      obtain ⟨sts1, s2⟩ := p
      rw [hst] at h
      dsimp only at h
      exact ih s2 res h (searchTermE_nodup hst hnd)

/-- Evaluation helper for a run whose page loop makes exactly one request
(at start offset 1). -/
theorem searchTermE_eval (srv : TermServer) (term : String) (limit total T : Nat)
    (recs : List SearchRec) (s : List String)
    (hc : getNumberOfPages srv = .ok total) (h0 : total ≠ 0)
    (hT : (if total > limit then limit else total) = T)
    (hT2 : 1 < T) (hT3 : ¬ 251 < T)
    (hp : srv.pageOutcome 1 = .ok recs) :
    searchTermE srv term limit s = .ok ([1], addAll s recs term) := by
  rw [searchTermE, hc]
  dsimp only
  rw [if_pos h0, hT, pageLoopE_step hT2, hp]
  dsimp only
  rw [pageLoopE_stop hT3]
  rfl

/-! ## Claims about Anonymous_CrookedConfluence.py -/

/-- Claim C1.  The spec expects that a keyword search whose server reports
totalSize = 2 with one record per page contributes exactly 2 records, both
tagged with the search term (every record from offset 0 up to totalSize).
The code starts its page loop at start_point = 1, and the count request's
results are discarded, so the record at offset 0 is never extracted: the run
issues exactly one page request (at offset 1) and contributes exactly one
record.  This theorem evaluates the model at the failing input. -/
theorem searchTerm_totalSize_two_adds_one_record :
    searchTermE (honestServer [⟨"/u0", "t0"⟩, ⟨"/u1", "t1"⟩] 1) "password" maxsize []
        = .ok ([1], ["/u1,t1,password"]) ∧
    ["/u1,t1,password"].length = 1 ∧
    "/u0,t0,password" ∉ ["/u1,t1,password"] := by
  refine ⟨?_, by decide, by decide⟩
  exact searchTermE_eval _ "password" maxsize 2 2 [⟨"/u1", "t1"⟩] [] rfl
    (by norm_num) (by decide) (by norm_num) (by decide) rfl

/-- Claim C2, counterexample.  With a server total of 4 records (pages of up
to 250 records) and a caller limit of 2, the loop requests the single offset 1
and accumulates 3 records: the accumulated record count exceeds the limit,
refuting the part of the claim that says the collector stops once the
accumulated count reaches the limit. -/
theorem searchTerm_count_exceeds_limit :
    searchTermE
        (honestServer [⟨"/u0", "t0"⟩, ⟨"/u1", "t1"⟩, ⟨"/u2", "t2"⟩, ⟨"/u3", "t3"⟩] 250)
        "term" 2 []
      = .ok ([1], ["/u1,t1,term", "/u2,t2,term", "/u3,t3,term"]) ∧
    2 < ["/u1,t1,term", "/u2,t2,term", "/u3,t3,term"].length := by
  refine ⟨?_, by decide⟩
  exact searchTermE_eval _ "term" 2 4 2 [⟨"/u1", "t1"⟩, ⟨"/u2", "t2"⟩, ⟨"/u3", "t3"⟩] [] rfl
    (by norm_num) (by decide) (by norm_num) (by decide) rfl

/-- Claim C2, amended.  What the code bounds is the set of requested page
offsets, not the accumulated record count: every offset the loop requests for
a term is at least 1 and below both the server-reported total and the caller's
limit, so no page beyond the reported total (or beyond the limit) is ever
requested; the accumulated count, however, may overshoot the limit by up to
one page (see the counterexample). -/
theorem searchTerm_requested_offsets_bounded (srv : TermServer) (term : String)
    (limit total : Nat) (s : List String) (sts : List Nat) (s2 : List String)
    (hc : getNumberOfPages srv = .ok total)
    (hr : searchTermE srv term limit s = .ok (sts, s2)) :
    ∀ x ∈ sts, 1 ≤ x ∧ x < total ∧ x < limit := by
  rw [searchTermE, hc] at hr
  dsimp only at hr
  by_cases h0 : total ≠ 0
  · rw [if_pos h0] at hr
    have hs := pageLoopE_spec srv term (if total > limit then limit else total)
      (if total > limit then limit else total) 1 s sts s2 (by omega) hr
    intro x hx
    obtain ⟨h1, h2⟩ := hs.1 x hx
    by_cases hgt : total > limit
    · rw [if_pos hgt] at h2
      exact ⟨h1, by omega, by omega⟩
    · rw [if_neg hgt] at h2
      exact ⟨h1, by omega, by omega⟩
  · rw [if_neg h0] at hr
    obtain ⟨h1, h2⟩ : ([] : List Nat) = sts ∧ s = s2 := by simpa using hr
    subst h1
    intro x hx
    simp at hx

/-- Witness for the amended claim C2: a concrete run with total 2 and limit 5
requests exactly offset 1, which the theorem bounds by the total and the
limit. -/
theorem searchTerm_requested_offsets_bounded_witness :
    1 ≤ 1 ∧ 1 < 2 ∧ 1 < 5 := by
  refine searchTerm_requested_offsets_bounded
    (honestServer [⟨"/u0", "t0"⟩, ⟨"/u1", "t1"⟩] 1) "x" 5 2 [] [1] ["/u1,t1,x"] rfl ?_ 1 (by simp)
  exact searchTermE_eval _ "x" 5 2 2 [⟨"/u1", "t1"⟩] [] rfl
    (by norm_num) (by decide) (by norm_num) (by decide) rfl

/-- Claim C4.  contentSet is a Python set keyed by the full
identifier,title,search-term string, so the accumulated result set never holds
two records with the same dedup key; and saveContent writes exactly one entry
per set element, so no dedup key is written twice within one output file. -/
theorem contentSet_and_saveContent_dedup (server : String → TermServer) (limit : Nat)
    (terms : List String) (res : List String) (ogURL : String)
    (h : searchKeyWordsE server limit terms [] = .ok res) :
    res.Nodup ∧ saveContent ogURL res = res.map (saveEntry ogURL) :=
  ⟨searchKeyWordsE_nodup server limit terms [] res h List.nodup_nil, rfl⟩

/-- Witness for claim C4 at a concrete run (a term with no results: the run
succeeds with the empty set, which is duplicate-free and written once). -/
theorem contentSet_and_saveContent_dedup_witness :
    ([] : List String).Nodup ∧ saveContent "u" [] = ([] : List String).map (saveEntry "u") :=
  contentSet_and_saveContent_dedup (fun _ => honestServer [] 250) maxsize ["a"] [] "u" rfl

/-- Claim C5, counterexample.  In searchKeyWords a failed request is not
treated as end-of-data for the current sub-query: the count request of the
first term "secret" fails, the exception propagates (getNumberOfPages has no
handler), the whole multi-query run aborts, and the sibling term "password"
is never processed — its records do not appear anywhere. -/
theorem searchKeyWords_aborts_run_on_failed_request :
    searchKeyWordsE crashingServer maxsize ["secret", "password"] []
      = .error "connection refused" := rfl

/-! ## Claims about Confluence_Anon_List_All.py -/

/-- Claim C5, amended.  In the list-all script every request goes through
safe_request, which maps any failure to None; the caller turns None into an
empty result for that sub-query, and sibling sub-queries are unaffected:
failing one space's page request turns exactly that space's page list into []
and leaves every other space's result unchanged — the run itself is a total
function (it never crashes).  (The counterexample shows that the
keyword-search script does not share this behaviour.) -/
theorem spacesPages_failure_isolated (po : String → Except String (List (Nat × String)))
    (cURL : String) (k0 e : String) (spaces : List String) :
    spacesPages (fun k => if k = k0 then .error e else po k) cURL spaces
      = (spacesPages po cURL spaces).map (fun p => if p.1 = k0 then (p.1, []) else p) := by
  induction spaces with
  | nil => rfl
  | cons k rest ih =>
    by_cases hk : k = k0
    · subst hk
      simp [spacesPages, get_pages_in_space, safe_request, ih]
    · simp [spacesPages, hk, ih]

/-- Claim C3 (code bug).  On the content tree whose 7 descendants form a
depth-3, branching-2 tree (tree7), get_child_pages does not return every
descendant exactly once: because the for-statement iterates the list it is
extending while each processed entry also triggers a full recursive
enumeration, every depth-3 node is appended twice.  The returned list is
[1,2,3,4,5,6,7,4,5,6,7]: it has 11 entries for 7 descendants, node 4 appears
twice, and the list is not duplicate-free. -/
theorem get_child_pages_duplicates_depth3 :
    gcp 100 tree7 0 = some [1, 2, 3, 4, 5, 6, 7, 4, 5, 6, 7] ∧
    ((gcp 100 tree7 0).getD []).count 4 = 2 ∧
    ¬ ((gcp 100 tree7 0).getD []).Nodup := by
  exact ⟨rfl, rfl, by decide⟩

/-! ## Claims about confluence_get_group_members.py -/

theorem get_all_users_concat :
    ∀ (pages : List MemberResp) (acc : List String),
      (∀ p ∈ pages, respOk p = true) →
      (∀ i, i + 1 < pages.length → respNext (pages.getD i (.err "")) = true) →
      get_all_users pages acc = acc ++ (pages.map respResults).flatten := by
  intro pages
  induction pages with
  | nil =>
    intro acc _ _
    simp [get_all_users]
  | cons p rest ih =>
    intro acc hok hnext
    cases p with
    | err m =>
      have := hok (.err m) (by simp)
      simp [respOk] at this
    | ok rs nxt =>
      cases rest with
      | nil => cases nxt <;> simp [get_all_users, respResults]
      | cons q qs =>
        have hn : nxt = true := by
          have h0 := hnext 0 (by simp)
          simpa [respNext] using h0
        subst hn
        have hok2 : ∀ x ∈ q :: qs, respOk x = true := fun x hx => hok x (by simp [hx])
        have hnext2 : ∀ i, i + 1 < (q :: qs).length →
            respNext ((q :: qs).getD i (.err "")) = true := by
          intro i hi
          have h1 := hnext (i + 1) (by simp only [List.length_cons] at hi ⊢; omega)
          simpa using h1
        have hstep : get_all_users (MemberResp.ok rs true :: q :: qs) acc
            = get_all_users (q :: qs) (acc ++ rs) := rfl
        rw [hstep, ih (acc ++ rs) hok2 hnext2]
        simp [respResults]

/-- Claim C6.  For cursor pagination, given any finite sequence of pages the
server serves in order (every page a 200 response, every page but the last
carrying the next link — in particular the sequence may end in an empty page
or in a page with no continuation), the loop of get_all_users terminates (it
is a total function of the page list) and returns exactly the concatenation
of the results extracted from every page: every extracted username and
nothing else. -/
theorem get_all_users_returns_union (pages : List MemberResp)
    (hok : ∀ p ∈ pages, respOk p = true)
    (hlink : ∀ i, i + 1 < pages.length → respNext (pages.getD i (.err "")) = true) :
    get_all_users pages [] = (pages.map respResults).flatten := by
  simpa using get_all_users_concat pages [] hok hlink

/-- Witness for claim C6: a two-page sequence whose last page has no next
link yields exactly the two extracted usernames. -/
theorem get_all_users_returns_union_witness :
    get_all_users [.ok ["alice"] true, .ok ["bob"] false] []
      = ([MemberResp.ok ["alice"] true, .ok ["bob"] false].map respResults).flatten := by
  refine get_all_users_returns_union _ (by decide) ?_
  intro i hi
  have h0 : i = 0 := by simp only [List.length_cons, List.length_nil] at hi; omega
  subst h0
  decide

/-- Claim C7.  A transport failure (non-200 response) on page 2 of a 3-page
cursor-paginated collection makes the loop break, and the value returned is
exactly the records already extracted from page 1: partial results are
preserved, not discarded. -/
theorem get_all_users_keeps_partial_results (rs1 rs3 : List String) (b3 : Bool) (e : String) :
    get_all_users [.ok rs1 true, .err e, .ok rs3 b3] [] = rs1 := by
  simp [get_all_users]

/-! ## Claims about simple_http_probe.py -/

/-- Claim C9.  probe_once is total — every request outcome, including every
caught exception class, maps to a 4-field result — and its result string is
always one of the closed outcome set: "NOT OPEN (503 Service Unavailable)",
"POTENTIAL OPEN", or a string starting with "NO RESPONSE"; moreover
status_code is None exactly in the "NO RESPONSE" cases. -/
theorem probe_once_total_closed_outcomes (o : ReqOutcome) :
    ((probe_once o).result = "NOT OPEN (503 Service Unavailable)" ∨
      (probe_once o).result = "POTENTIAL OPEN" ∨
      strStarts (probe_once o).result "NO RESPONSE" = true) ∧
    ((probe_once o).status_code = none ↔
      strStarts (probe_once o).result "NO RESPONSE" = true) := by
  cases o with
  | resp st reason body =>
    have e1 : strStarts "NOT OPEN (503 Service Unavailable)" "NO RESPONSE" = false := by decide
    have e2 : strStarts "POTENTIAL OPEN" "NO RESPONSE" = false := by decide
    by_cases h : st = 503 ∧ reason ≠ "" ∧ strHasSub reason "Service Unavailable" = true
    · simp [probe_once, h, e1]
    · simp [probe_once, h, e2]
  | sslError e =>
    have e3 : strStarts "NO RESPONSE (ssl_error)" "NO RESPONSE" = true := by decide
    simp [probe_once, e3]
  | connectTimeout => exact ⟨Or.inr (Or.inr (by decide)), by decide⟩
  | readTimeout => exact ⟨Or.inr (Or.inr (by decide)), by decide⟩
  | connectionError e =>
    have e3 : strStarts "NO RESPONSE (connection_error)" "NO RESPONSE" = true := by decide
    simp [probe_once, e3]
  | otherExc e =>
    have e3 : strStarts "NO RESPONSE (unknown_error)" "NO RESPONSE" = true := by decide
    simp [probe_once, e3]

/-- Claim C10.  Per port, HTTPS is probed first and the plain-HTTP probe is
made exactly when the HTTPS attempt produced no HTTP response (status_code
None); any HTTP response on the HTTPS attempt — a 503 included — suppresses
the HTTP attempt for that port. -/
theorem http_probed_only_without_https_response (httpsO httpO : ReqOutcome) :
    Scheme.http ∈ (probePort httpsO httpO).map Prod.fst ↔
      (probe_once httpsO).status_code = none := by
  cases h : (probe_once httpsO).status_code with
  | none => simp [probePort, h]
  | some v => simp [probePort, h]

/-! ## Claims about main of Anonymous_CrookedConfluence.py -/

/-- Claim C8, counterexample.  An invocation whose options are just -h is an
invocation with both mandatory arguments missing, yet the process exits with
status 0 (sys.exit() in the help branch), not a non-zero status.  It does
exit before any collection request. -/
theorem main_help_invocation_exits_zero :
    mainModel true [("-h", "")] none (fun _ => honestServer [] 1) = .exitedBeforeRun 0 := rfl

/-- Claim C8, amended.  For every invocation whose options do not take the
help exit: a missing dictionary path, a missing target URL, or an unreadable
word-list file makes the process exit with the non-zero status 2 before any
collection request is issued (mainModel returns exitedBeforeRun, and every
request of the script happens inside the run that is never reached). -/
theorem main_config_error_exits_nonzero (opts : List (String × String))
    (fileTerms : Option (List String)) (server : String → TermServer) (st : ArgState)
    (hp : procOpts opts initArgs = some st)
    (hbad : st.dict = "" ∨ st.cURL = "" ∨ fileTerms = none) :
    ∃ c, c ≠ 0 ∧ mainModel true opts fileTerms server = .exitedBeforeRun c := by
  refine ⟨2, by norm_num, ?_⟩
  rw [mainModel, if_neg (by simp), hp]
  dsimp only
  rcases hbad with h | h | h
  · rw [if_pos h]
  · by_cases hd : st.dict = ""
    · rw [if_pos hd]
    · rw [if_neg hd, if_pos h]
  · by_cases hd : st.dict = ""
    · rw [if_pos hd]
    · rw [if_neg hd]
      by_cases hcu : st.cURL = ""
      · rw [if_pos hcu]
      · rw [if_neg hcu, h]

/-- Witness for the amended claim C8: the empty invocation (no options at
all) exits with status 2 before any request. -/
theorem main_config_error_exits_nonzero_witness :
    ∃ c, c ≠ 0 ∧ mainModel true [] none (fun _ => honestServer [] 1) = .exitedBeforeRun c :=
  main_config_error_exits_nonzero [] none (fun _ => honestServer [] 1) initArgs rfl (Or.inl rfl)
